import Mathlib

/-!
Verification of the duplicate-case detection and resolution core of the
Desaparecidos service (routes/alerts.ts, duplicates router).

The embedding models:
* `levenshteinDistance` and `calculateSimilarity` (similarity primitives);
* the pairwise weighted scorer of the `POST /detect` handler;
* the detection pass (candidate generation, idempotent persistence loop);
* the `PATCH /:id/resolve` handler (status update, optional case deletion,
  audit entry).

Numbers that are JavaScript floats in the source are modelled as rationals;
JavaScript truthiness of the guarded fields is modelled explicitly
(a string is truthy iff nonempty, a number iff nonzero, a Date object always,
null never).
-/

namespace Desaparecidos

/-! ## Similarity primitives (source: levenshteinDistance, calculateSimilarity) -/

/-- Placeholder character used by `List.getD` for out-of-range accesses;
all in-range uses are guarded by bounds in the lemmas. -/
def padChar : Char := ' '

/-- Row `i+1` of the Levenshtein matrix of the source, as a function of the
column index, given row `i` as `prev`.  Mirrors the inner `for j` loop of
`levenshteinDistance`: entry 0 is `i+1`, and entry `j+1` is `prev j` when
`str2.charAt(i)` equals `str1.charAt(j)`, otherwise
`min(prev[j] + 1, cur[j] + 1, prev[j+1] + 1)` in the source's operand order. -/
def levRow (str1 str2 : List Char) (i : Nat) (prev : Nat → Nat) : Nat → Nat
  | 0 => i + 1
  | j + 1 =>
    if str2.getD i padChar = str1.getD j padChar then prev j
    else
      min (prev j + 1)
        (min (levRow str1 str2 i prev j + 1) (prev (j + 1) + 1))

/-- Entry `(i, j)` of the dynamic-programming matrix built by the source's
`levenshteinDistance` (row index `i` runs over `str2`, column index `j` over
`str1`): row 0 is `j ↦ j`, and row `i+1` is computed from row `i`. -/
def matVal (str1 str2 : List Char) : Nat → Nat → Nat
  | 0 => fun j => j
  | i + 1 => levRow str1 str2 i (matVal str1 str2 i)

/-- Source `levenshteinDistance(str1, str2)`: the matrix entry at
`(str2.length, str1.length)`. -/
def levenshteinDistance (str1 str2 : String) : Nat :=
  matVal str1.data str2.data str2.data.length str1.data.length

/-- Source `calculateSimilarity(str1, str2)`: picks the longer and shorter
string (ties go to `str2`, exactly as `str1.length > str2.length` does),
returns 1.0 for two empty strings, else `(longer.length - distance) /
longer.length`. -/
def calculateSimilarity (str1 str2 : String) : ℚ :=
  let longer := if str2.length < str1.length then str1 else str2
  let shorter := if str2.length < str1.length then str2 else str1
  if longer.length = 0 then 1
  else ((longer.length : ℚ) - (levenshteinDistance longer shorter : ℚ)) /
    (longer.length : ℚ)

/-- Modelled from the spec: the classic dynamic-programming edit-distance
table for strings `s1` (row index) and `s2` (column index), with base cases
`d[i][0] = i` and `d[0][j] = j`, `d[i][j] = d[i-1][j-1]` when the `i`-th
character of `s1` matches the `j`-th character of `s2`, and otherwise
`1 + min(d[i-1][j], d[i][j-1], d[i-1][j-1])`.  Stated as a second definition,
following the spec's words, to compare with the source's matrix. -/
def classicRow (s1 s2 : List Char) (i : Nat) (prev : Nat → Nat) : Nat → Nat
  | 0 => i + 1
  | j + 1 =>
    if s1.getD i padChar = s2.getD j padChar then prev j
    else 1 + min (prev (j + 1)) (min (classicRow s1 s2 i prev j) (prev j))

/-- Modelled from the spec: full table of `classicRow`, see there. -/
def classicMatrix (s1 s2 : List Char) : Nat → Nat → Nat
  | 0 => fun j => j
  | i + 1 => classicRow s1 s2 i (classicMatrix s1 s2 i)

/-! ## Pairwise scorer (source: scoring loop of the POST /detect handler) -/

/-- Case record as seen by the duplicate-detection code: the guarded fields
of `MissingPerson`.  `age` is nullable in the schema; `missingDate` and
`province` are modelled as options so that the handler's truthiness guards
stay meaningful (a `Date` object is always truthy, `null` never is, a string
is truthy iff nonempty, a number iff nonzero). -/
structure CaseRecord where
  id : String
  fullName : String
  age : Option Int
  missingDate : Option Int
  province : Option String
deriving DecidableEq, Repr

/-- Lower-casing used on names before comparison (`toLowerCase()`). -/
def lowerStr (s : String) : String := ⟨s.data.map Char.toLower⟩

/-- Name similarity of two records: `calculateSimilarity` on the lower-cased
full names. -/
def nameSimilarity (c1 c2 : CaseRecord) : ℚ :=
  calculateSimilarity (lowerStr c1.fullName) (lowerStr c2.fullName)

/-- Date similarity: absolute difference of the two timestamps (milliseconds)
converted to days; `1 - daysDiff / 30` within 30 days, else 0. -/
def dateSimilarity (t1 t2 : Int) : ℚ :=
  let dateDiff : ℚ := |(t1 : ℚ) - (t2 : ℚ)|
  let daysDiff : ℚ := dateDiff / (1000 * 60 * 60 * 24)
  if daysDiff ≤ 30 then 1 - daysDiff / 30 else 0

/-- Age similarity: `1 - ageDiff / 5` within a difference of 5, else 0. -/
def ageSimilarity (a1 a2 : Int) : ℚ :=
  let ageDiff : ℚ := |(a1 : ℚ) - (a2 : ℚ)|
  if ageDiff ≤ 5 then 1 - ageDiff / 5 else 0

/-- Name step of the scoring loop: when both full names pass the truthiness
guard `case1.fullName && case2.fullName` (nonempty strings), add
`nameSimilarity × 0.4` to the score and `0.4` to the applicable weight. -/
def addName (c1 c2 : CaseRecord) (p : ℚ × ℚ) : ℚ × ℚ :=
  if c1.fullName ≠ "" ∧ c2.fullName ≠ "" then
    (p.1 + nameSimilarity c1 c2 * (2 / 5), p.2 + 2 / 5)
  else p

/-- Date step: when both `missingDate` fields are present (a `Date` object is
always truthy), add `dateSimilarity × 0.2` and weight `0.2`. -/
def addDate (c1 c2 : CaseRecord) (p : ℚ × ℚ) : ℚ × ℚ :=
  match c1.missingDate, c2.missingDate with
  | some t1, some t2 => (p.1 + dateSimilarity t1 t2 * (1 / 5), p.2 + 1 / 5)
  | _, _ => p

/-- Province step: when both provinces pass the truthiness guard, add
`(1 if equal else 0) × 0.2` and weight `0.2`. -/
def addProvince (c1 c2 : CaseRecord) (p : ℚ × ℚ) : ℚ × ℚ :=
  match c1.province, c2.province with
  | some pr1, some pr2 =>
    if pr1 ≠ "" ∧ pr2 ≠ "" then
      (p.1 + (if pr1 = pr2 then (1 : ℚ) else 0) * (1 / 5), p.2 + 1 / 5)
    else p
  | _, _ => p

/-- Age step: when both ages pass the truthiness guard (present and nonzero),
add `ageSimilarity × 0.2` and weight `0.2`. -/
def addAge (c1 c2 : CaseRecord) (p : ℚ × ℚ) : ℚ × ℚ :=
  match c1.age, c2.age with
  | some a1, some a2 =>
    if a1 ≠ 0 ∧ a2 ≠ 0 then
      (p.1 + ageSimilarity a1 a2 * (1 / 5), p.2 + 1 / 5)
    else p
  | _, _ => p

/-- Running `(score, factors)` accumulator of the scoring loop: the four
factor steps applied in source order to the initial `(0, 0)`. -/
def scoreParts (c1 c2 : CaseRecord) : ℚ × ℚ :=
  addAge c1 c2 (addProvince c1 c2 (addDate c1 c2 (addName c1 c2 (0, 0))))

/-- Final pairwise score: `score / factors` if any factor applied, else 0. -/
def finalScore (c1 c2 : CaseRecord) : ℚ :=
  let p := scoreParts c1 c2
  if 0 < p.2 then p.1 / p.2 else 0

/-- Name factor as an optional (weight, similarity) pair; applicable exactly
when the source's truthiness guard `case1.fullName && case2.fullName`
passes. -/
def nameFactor (c1 c2 : CaseRecord) : Option (ℚ × ℚ) :=
  if c1.fullName ≠ "" ∧ c2.fullName ≠ "" then
    some (2 / 5, nameSimilarity c1 c2)
  else none

/-- Date factor; applicable when both dates are present (a `Date` object is
always truthy). -/
def dateFactor (c1 c2 : CaseRecord) : Option (ℚ × ℚ) :=
  match c1.missingDate, c2.missingDate with
  | some t1, some t2 => some (1 / 5, dateSimilarity t1 t2)
  | _, _ => none

/-- Province factor; applicable when both provinces are truthy strings. -/
def provinceFactor (c1 c2 : CaseRecord) : Option (ℚ × ℚ) :=
  match c1.province, c2.province with
  | some pr1, some pr2 =>
    if pr1 ≠ "" ∧ pr2 ≠ "" then
      some (1 / 5, if pr1 = pr2 then (1 : ℚ) else 0)
    else none
  | _, _ => none

/-- Age factor; applicable when both ages are truthy (present and nonzero). -/
def ageFactor (c1 c2 : CaseRecord) : Option (ℚ × ℚ) :=
  match c1.age, c2.age with
  | some a1, some a2 =>
    if a1 ≠ 0 ∧ a2 ≠ 0 then some (1 / 5, ageSimilarity a1 a2) else none
  | _, _ => none

/-- List of the applicable (weight, similarity) factors, in source order. -/
def factorList (c1 c2 : CaseRecord) : List (ℚ × ℚ) :=
  (nameFactor c1 c2).toList ++ (dateFactor c1 c2).toList ++
    (provinceFactor c1 c2).toList ++ (ageFactor c1 c2).toList

/-- Sum of `weight × similarity` over the applicable factors. -/
def weightedSum (l : List (ℚ × ℚ)) : ℚ := (l.map fun p => p.1 * p.2).sum

/-- Sum of the applicable weights. -/
def weightTotal (l : List (ℚ × ℚ)) : ℚ := (l.map Prod.fst).sum

/-- Generic step: add an optional factor to the accumulator as the loop
does. -/
def addFactor (p : ℚ × ℚ) (f : Option (ℚ × ℚ)) : ℚ × ℚ :=
  match f with
  | none => p
  | some ws => (p.1 + ws.2 * ws.1, p.2 + ws.1)

/-! ## Duplicate registry, detection pass and resolution workflow
(source: POST /detect, GET /, PATCH /:id/resolve handlers) -/

/-- Status enum `DuplicateStatus` of the schema, with the Portuguese values
used by the source. -/
inductive DupStatus
  | PENDENTE
  | CONFIRMADO
  | REJEITADO
  | RESOLVIDO
deriving DecidableEq, Repr

/-- Row of the `DuplicateCase` table. -/
structure DupRecord where
  id : Nat
  originalCaseId : String
  duplicateCaseId : String
  similarityScore : ℚ
  detectedBy : String
  status : DupStatus
  resolvedBy : Option String
  resolvedAt : Option Int
  resolutionNotes : Option String
deriving DecidableEq, Repr

/-- Candidate duplicate entry pushed by the scoring loop. -/
structure Candidate where
  originalCaseId : String
  duplicateCaseId : String
  similarityScore : ℚ
deriving DecidableEq, Repr

/-- Explicit audit-log row written by the delete branch of the resolve
handler (`prisma.auditLog.create`). -/
structure AuditEntry where
  userId : String
  action : String
  entityType : String
  entityId : String
  details : String
  metaOriginalCaseId : String
  metaDuplicateCaseId : String
  metaSimilarityScore : ℚ
deriving DecidableEq, Repr

/-- Persistent state touched by the duplicates router: the `MissingPerson`
rows (the eligible record set in query order), the `DuplicateCase` rows, the
explicit audit-log rows, and the id counter standing in for generated row
ids. -/
structure Store where
  cases : List CaseRecord
  registry : List DupRecord
  auditLogs : List AuditEntry
  nextId : Nat
deriving DecidableEq, Repr

/-- Ordered pairs `(cases[i], cases[j])` with `i < j`, in the double-loop
order of the detection pass. -/
def pairsAfter : List CaseRecord → List (CaseRecord × CaseRecord)
  | [] => []
  | c :: rest => (rest.map fun c2 => (c, c2)) ++ pairsAfter rest

/-- Candidate list of the detection pass: every ordered `i < j` pair whose
final score reaches the threshold (`finalScore >= threshold`). -/
def detectCandidates (cases : List CaseRecord) (threshold : ℚ) :
    List Candidate :=
  (pairsAfter cases).filterMap fun p =>
    if threshold ≤ finalScore p.1 p.2 then
      some ⟨p.1.id, p.2.id, finalScore p.1 p.2⟩
    else none

/-- Registry lookup on the composite unique key
`originalCaseId_duplicateCaseId` (the `findUnique` pre-check). -/
def existsPair (reg : List DupRecord) (o d : String) : Bool :=
  reg.any fun r => r.originalCaseId = o ∧ r.duplicateCaseId = d

/-- Freshly created `PENDENTE` pair for a candidate (`duplicateCase.create`):
resolution fields empty, `detectedBy` the invoking user. -/
def mkDup (id : Nat) (userId : String) (c : Candidate) : DupRecord :=
  ⟨id, c.originalCaseId, c.duplicateCaseId, c.similarityScore, userId,
    DupStatus.PENDENTE, none, none, none⟩

/-- Persistence loop of the detection pass.  For each candidate in order:
skip it if a pair with the same ordered key exists, otherwise create the row
— unless creation throws (`fails` models a storage failure), in which case
the exception propagates to the handler's single catch block: the loop stops
and the error flag is set.  Returns the final store, the created rows, and
the error flag. -/
def persistLoop (fails : Candidate → Bool) (userId : String) :
    List Candidate → Store → List DupRecord → Store × List DupRecord × Bool
  | [], st, created => (st, created, false)
  | c :: rest, st, created =>
    if existsPair st.registry c.originalCaseId c.duplicateCaseId then
      persistLoop fails userId rest st created
    else if fails c then (st, created, true)
    else
      let r := mkDup st.nextId userId c
      persistLoop fails userId rest
        { st with registry := st.registry ++ [r], nextId := st.nextId + 1 }
        (created ++ [r])

/-- Outcome of the `POST /detect` handler: the created pairs on success, or
the catch-all 500 response when a storage operation threw. -/
inductive DetectResult
  | ok (created : List DupRecord)
  | serverError
deriving DecidableEq, Repr

/-- The `POST /detect` handler: takes the optional body threshold (default
0.7 — no validation of any kind is performed on it), scores every ordered
pair of the eligible records, and persists the candidates idempotently. -/
def detectPass (fails : Candidate → Bool) (userId : String)
    (thresholdOpt : Option ℚ) (st : Store) : DetectResult × Store :=
  let threshold := thresholdOpt.getD (7 / 10)
  let cands := detectCandidates st.cases threshold
  let res := persistLoop fails userId cands st []
  (if res.2.2 then DetectResult.serverError else DetectResult.ok res.2.1,
    res.1)

/-- Outcome of the `PATCH /:id/resolve` handler. -/
inductive ResolveResult
  | validationError
  | notFound
  | ok (updated : DupRecord)
  | serverError
deriving DecidableEq, Repr

/-- The `PATCH /:id/resolve` handler.  The body status is validated to be one
of CONFIRMADO, REJEITADO, RESOLVIDO (so `PENDENTE` is a 400); the pair is
fetched by id (404 when absent) and unconditionally updated — the current
status is never inspected.  When the new status is CONFIRMADO and
`deleteDuplicate` is truthy, the referenced duplicate `MissingPerson` row is
deleted and an explicit audit entry is appended; a missing row makes the
delete throw into the catch block (500) after the update is committed. -/
def resolve (userId : String) (now : Int) (pairId : Nat) (status : DupStatus)
    (notes : Option String) (deleteDuplicate : Option Bool) (st : Store) :
    ResolveResult × Store :=
  if status = DupStatus.PENDENTE then (ResolveResult.validationError, st)
  else
    match st.registry.find? fun r => r.id = pairId with
    | none => (ResolveResult.notFound, st)
    | some duplicate =>
      let updated : DupRecord :=
        { duplicate with
          status := status
          resolvedBy := some userId
          resolvedAt := some now
          resolutionNotes :=
            match notes with
            | some n => some n
            | none => duplicate.resolutionNotes }
      let st1 : Store :=
        { st with
          registry := st.registry.map fun r =>
            if r.id = pairId then updated else r }
      if status = DupStatus.CONFIRMADO ∧ deleteDuplicate = some true then
        match st1.cases.find? fun c => c.id = duplicate.duplicateCaseId with
        | none => (ResolveResult.serverError, st1)
        | some victim =>
          (ResolveResult.ok updated,
            { st1 with
              cases := st1.cases.filter
                fun c => ¬c.id = duplicate.duplicateCaseId
              auditLogs := st1.auditLogs ++
                [⟨userId, "DELETE_DUPLICATE_CASE", "CASE",
                  duplicate.duplicateCaseId,
                  "Caso duplicado deletado: " ++ victim.fullName,
                  duplicate.originalCaseId, duplicate.duplicateCaseId,
                  duplicate.similarityScore⟩] })
      else (ResolveResult.ok updated, st1)

/-! ## Concrete records used by witnesses and counterexamples -/

/-- Approved case used in concrete runs (name "ab", no optional fields). -/
def mkRec (id : String) : CaseRecord := ⟨id, "ab", none, none, none⟩

/-- Store with a single already-CONFIRMADO pair, used to exercise
re-resolution. -/
def stResolved : Store :=
  ⟨[mkRec "A", mkRec "B"],
    [⟨1, "A", "B", 1, "u", DupStatus.CONFIRMADO, some "u", some 0, none⟩],
    [], 2⟩

lemma matVal_zero (str1 str2 : List Char) (j : Nat) :
    matVal str1 str2 0 j = j := rfl

lemma matVal_succ_zero (str1 str2 : List Char) (i : Nat) :
    matVal str1 str2 (i + 1) 0 = i + 1 := rfl

lemma matVal_succ_succ (str1 str2 : List Char) (i j : Nat) :
    matVal str1 str2 (i + 1) (j + 1) =
      if str2.getD i padChar = str1.getD j padChar then matVal str1 str2 i j
      else
        min (matVal str1 str2 i j + 1)
          (min (matVal str1 str2 (i + 1) j + 1)
            (matVal str1 str2 i (j + 1) + 1)) := by
  rfl

/-- Symmetry of the Levenshtein matrix: swapping the two strings transposes
the matrix. -/
lemma matVal_symm (str1 str2 : List Char) :
    ∀ i j, matVal str1 str2 i j = matVal str2 str1 j i := by
  intro i
  induction i with
  | zero =>
    intro j
    cases j with
    | zero => rfl
    | succ j => rw [matVal_zero, matVal_succ_zero]
  | succ i ih =>
    intro j
    induction j with
    | zero => rw [matVal_succ_zero, matVal_zero]
    | succ j jh =>
      rw [matVal_succ_succ, matVal_succ_succ]
      by_cases h : str2.getD i padChar = str1.getD j padChar
      · rw [if_pos h, if_pos h.symm, ih]
      · rw [if_neg h, if_neg (fun hc => h hc.symm), ih j, ih (j + 1), jh]
        omega

/-- Each matrix entry is bounded by the larger of its two indices (hence the
distance never exceeds the longer string's length). -/
lemma matVal_le_max (str1 str2 : List Char) :
    ∀ i j, matVal str1 str2 i j ≤ max i j := by
  intro i
  induction i with
  | zero => intro j; rw [matVal_zero]; omega
  | succ i ih =>
    intro j
    cases j with
    | zero => rw [matVal_succ_zero]; omega
    | succ j =>
      rw [matVal_succ_succ]
      have h1 := ih j
      have h2 := ih (j + 1)
      split
      · omega
      · omega

/-- Diagonal entries of the matrix of a string against itself are zero. -/
lemma matVal_self (s : List Char) : ∀ i, matVal s s i i = 0 := by
  intro i
  induction i with
  | zero => rfl
  | succ i ih => rw [matVal_succ_succ, if_pos rfl, ih]

lemma levenshteinDistance_self (s : String) : levenshteinDistance s s = 0 := by
  unfold levenshteinDistance
  exact matVal_self s.data s.data.length

lemma levenshteinDistance_comm (s1 s2 : String) :
    levenshteinDistance s1 s2 = levenshteinDistance s2 s1 := by
  unfold levenshteinDistance
  exact matVal_symm s1.data s2.data s2.data.length s1.data.length

lemma levenshteinDistance_le (s1 s2 : String) :
    levenshteinDistance s1 s2 ≤ max s1.length s2.length := by
  have h := matVal_le_max s1.data s2.data s2.data.length s1.data.length
  have h1 : s1.length = s1.data.length := rfl
  have h2 : s2.length = s2.data.length := rfl
  unfold levenshteinDistance
  omega

lemma classicMatrix_succ_succ (s1 s2 : List Char) (i j : Nat) :
    classicMatrix s1 s2 (i + 1) (j + 1) =
      if s1.getD i padChar = s2.getD j padChar then classicMatrix s1 s2 i j
      else
        1 + min (classicMatrix s1 s2 i (j + 1))
          (min (classicMatrix s1 s2 (i + 1) j) (classicMatrix s1 s2 i j)) :=
  rfl

/-- The spec's table coincides with the source's matrix with the two strings
swapped (the source indexes rows by `str2`, the spec by the first string). -/
lemma classicMatrix_eq_matVal (s1 s2 : List Char) :
    ∀ i j, classicMatrix s1 s2 i j = matVal s2 s1 i j := by
  intro i
  induction i with
  | zero => intro j; rfl
  | succ i ih =>
    intro j
    induction j with
    | zero => rfl
    | succ j jh =>
      rw [classicMatrix_succ_succ, matVal_succ_succ, ih j, ih (j + 1), jh]
      split
      · rfl
      · omega

/-- Similarity of a string with itself is 1 (the distance on the diagonal is
zero). -/
lemma calculateSimilarity_self (s : String) : calculateSimilarity s s = 1 := by
  rw [calculateSimilarity]
  simp only [Nat.lt_irrefl, if_false, levenshteinDistance_self, Nat.cast_zero,
    sub_zero]
  split
  · rfl
  · rename_i h
    rw [div_self]
    exact Nat.cast_ne_zero.mpr h

/-- Similarity is symmetric in its two arguments. -/
lemma calculateSimilarity_comm (s1 s2 : String) :
    calculateSimilarity s1 s2 = calculateSimilarity s2 s1 := by
  rw [calculateSimilarity, calculateSimilarity]
  rcases Nat.lt_trichotomy s2.length s1.length with h | h | h
  · have h1 : ¬s1.length < s2.length := by omega
    simp only [if_pos h, if_neg h1]
  · have h1 : ¬s2.length < s1.length := by omega
    have h2 : ¬s1.length < s2.length := by omega
    simp only [if_neg h1, if_neg h2, levenshteinDistance_comm s2 s1]
    rw [h]
  · have h1 : ¬s2.length < s1.length := by omega
    simp only [if_neg h1, if_pos h]

/-- Branch form of the similarity bounds: the expression
`(len - distance) / len` is between 0 and 1 once the distance is known to be
at most `len`. -/
lemma simForm_nonneg (a b : String)
    (hd : levenshteinDistance a b ≤ a.length) :
    0 ≤ if a.length = 0 then (1 : ℚ)
      else ((a.length : ℚ) - (levenshteinDistance a b : ℚ)) / (a.length : ℚ) := by
  split
  · norm_num
  · apply div_nonneg _ (Nat.cast_nonneg _)
    rw [sub_nonneg]
    exact_mod_cast hd

lemma simForm_le_one (a b : String) :
    (if a.length = 0 then (1 : ℚ)
      else ((a.length : ℚ) - (levenshteinDistance a b : ℚ)) / (a.length : ℚ)) ≤
      1 := by
  split
  · norm_num
  · rename_i hz
    rw [div_le_one (by exact_mod_cast Nat.pos_of_ne_zero hz)]
    have : (0 : ℚ) ≤ (levenshteinDistance a b : ℚ) := Nat.cast_nonneg _
    linarith

/-- Similarity is nonnegative. -/
lemma calculateSimilarity_nonneg (s1 s2 : String) :
    0 ≤ calculateSimilarity s1 s2 := by
  rw [calculateSimilarity]
  by_cases h : s2.length < s1.length
  · simp only [if_pos h]
    apply simForm_nonneg
    have := levenshteinDistance_le s1 s2
    omega
  · simp only [if_neg h]
    apply simForm_nonneg
    have := levenshteinDistance_le s2 s1
    omega

/-- Similarity is at most 1. -/
lemma calculateSimilarity_le_one (s1 s2 : String) :
    calculateSimilarity s1 s2 ≤ 1 := by
  rw [calculateSimilarity]
  by_cases h : s2.length < s1.length
  · simp only [if_pos h]
    exact simForm_le_one s1 s2
  · simp only [if_neg h]
    exact simForm_le_one s2 s1

lemma addName_eq (c1 c2 : CaseRecord) (p : ℚ × ℚ) :
    addName c1 c2 p = addFactor p (nameFactor c1 c2) := by
  rw [addName, nameFactor]
  split <;> rfl

lemma addDate_eq (c1 c2 : CaseRecord) (p : ℚ × ℚ) :
    addDate c1 c2 p = addFactor p (dateFactor c1 c2) := by
  rw [addDate, dateFactor]
  rcases c1.missingDate with _ | t1 <;> rcases c2.missingDate with _ | t2 <;>
    rfl

lemma addProvince_eq (c1 c2 : CaseRecord) (p : ℚ × ℚ) :
    addProvince c1 c2 p = addFactor p (provinceFactor c1 c2) := by
  rw [addProvince, provinceFactor]
  rcases c1.province with _ | pr1 <;> rcases c2.province with _ | pr2 <;>
    (try rfl) <;> dsimp only <;> split_ifs <;> rfl

lemma addAge_eq (c1 c2 : CaseRecord) (p : ℚ × ℚ) :
    addAge c1 c2 p = addFactor p (ageFactor c1 c2) := by
  rw [addAge, ageFactor]
  rcases c1.age with _ | a1 <;> rcases c2.age with _ | a2 <;>
    (try rfl) <;> dsimp only <;> split_ifs <;> rfl

lemma addFactor_sum (p : ℚ × ℚ) (f : Option (ℚ × ℚ)) :
    addFactor p f =
      (p.1 + weightedSum f.toList, p.2 + weightTotal f.toList) := by
  rcases f with _ | ⟨w, s⟩ <;>
    simp [addFactor, weightedSum, weightTotal, mul_comm]

lemma weightedSum_append (l1 l2 : List (ℚ × ℚ)) :
    weightedSum (l1 ++ l2) = weightedSum l1 + weightedSum l2 := by
  simp [weightedSum]

lemma weightTotal_append (l1 l2 : List (ℚ × ℚ)) :
    weightTotal (l1 ++ l2) = weightTotal l1 + weightTotal l2 := by
  simp [weightTotal]

/-- The sequential accumulator equals the factor-list sums. -/
lemma scoreParts_eq (c1 c2 : CaseRecord) :
    scoreParts c1 c2 =
      (weightedSum (factorList c1 c2), weightTotal (factorList c1 c2)) := by
  rw [scoreParts, addName_eq, addDate_eq, addProvince_eq, addAge_eq,
    addFactor_sum, addFactor_sum, addFactor_sum, addFactor_sum, factorList,
    weightedSum_append, weightedSum_append, weightedSum_append,
    weightTotal_append, weightTotal_append, weightTotal_append]
  simp

lemma dateSimilarity_nonneg (t1 t2 : Int) : 0 ≤ dateSimilarity t1 t2 := by
  rw [dateSimilarity]
  have h0 : (0 : ℚ) ≤ |(t1 : ℚ) - (t2 : ℚ)| / (1000 * 60 * 60 * 24) :=
    div_nonneg (abs_nonneg _) (by norm_num)
  split
  · rename_i h
    have : |(t1 : ℚ) - (t2 : ℚ)| / (1000 * 60 * 60 * 24) / 30 ≤ 1 := by
      rw [div_le_one (by norm_num)]
      linarith
    linarith
  · exact le_refl 0

lemma dateSimilarity_le_one (t1 t2 : Int) : dateSimilarity t1 t2 ≤ 1 := by
  rw [dateSimilarity]
  have h0 : (0 : ℚ) ≤ |(t1 : ℚ) - (t2 : ℚ)| / (1000 * 60 * 60 * 24) :=
    div_nonneg (abs_nonneg _) (by norm_num)
  split
  · have : (0 : ℚ) ≤ |(t1 : ℚ) - (t2 : ℚ)| / (1000 * 60 * 60 * 24) / 30 :=
      div_nonneg h0 (by norm_num)
    linarith
  · norm_num

lemma ageSimilarity_nonneg (a1 a2 : Int) : 0 ≤ ageSimilarity a1 a2 := by
  rw [ageSimilarity]
  have h0 : (0 : ℚ) ≤ |(a1 : ℚ) - (a2 : ℚ)| := abs_nonneg _
  split
  · rename_i h
    have : |(a1 : ℚ) - (a2 : ℚ)| / 5 ≤ 1 := by
      rw [div_le_one (by norm_num)]
      linarith
    linarith
  · exact le_refl 0

lemma ageSimilarity_le_one (a1 a2 : Int) : ageSimilarity a1 a2 ≤ 1 := by
  rw [ageSimilarity]
  have h0 : (0 : ℚ) ≤ |(a1 : ℚ) - (a2 : ℚ)| := abs_nonneg _
  split
  · have : (0 : ℚ) ≤ |(a1 : ℚ) - (a2 : ℚ)| / 5 := div_nonneg h0 (by norm_num)
    linarith
  · norm_num

/-- Every applicable factor has weight 0.4 or 0.2 and a similarity in
`[0, 1]`. -/
lemma factor_bounds (c1 c2 : CaseRecord) :
    ∀ p ∈ factorList c1 c2,
      (p.1 = 2 / 5 ∨ p.1 = 1 / 5) ∧ 0 ≤ p.2 ∧ p.2 ≤ 1 := by
  intro p hp
  rw [factorList] at hp
  simp only [List.mem_append, Option.mem_toList, Option.mem_def] at hp
  rcases hp with ((hn | hd) | hpr) | ha
  · rw [nameFactor] at hn
    split_ifs at hn <;> cases hn
    exact ⟨Or.inl rfl,
      calculateSimilarity_nonneg _ _, calculateSimilarity_le_one _ _⟩
  · rw [dateFactor] at hd
    rcases h1 : c1.missingDate with _ | t1 <;> rw [h1] at hd <;>
      rcases h2 : c2.missingDate with _ | t2 <;> rw [h2] at hd <;>
      dsimp only at hd <;> cases hd
    exact ⟨Or.inr rfl, dateSimilarity_nonneg t1 t2, dateSimilarity_le_one t1 t2⟩
  · rw [provinceFactor] at hpr
    rcases h1 : c1.province with _ | pr1 <;> rw [h1] at hpr <;>
      rcases h2 : c2.province with _ | pr2 <;> rw [h2] at hpr <;>
      dsimp only at hpr <;> (try split_ifs at hpr) <;> cases hpr
    all_goals exact ⟨Or.inr rfl, by norm_num, by norm_num⟩
  · rw [ageFactor] at ha
    rcases h1 : c1.age with _ | a1 <;> rw [h1] at ha <;>
      rcases h2 : c2.age with _ | a2 <;> rw [h2] at ha <;>
      dsimp only at ha <;> (try split_ifs at ha) <;> cases ha
    exact ⟨Or.inr rfl, ageSimilarity_nonneg a1 a2, ageSimilarity_le_one a1 a2⟩

lemma weightTotal_nonneg (l : List (ℚ × ℚ)) (h : ∀ p ∈ l, 0 ≤ p.1) :
    0 ≤ weightTotal l := by
  induction l with
  | nil => simp [weightTotal]
  | cons p l ih =>
    have hp := h p (by simp)
    have hl := ih fun q hq => h q (by simp [hq])
    simp only [weightTotal, List.map_cons, List.sum_cons] at *
    linarith

lemma weightedSum_nonneg (l : List (ℚ × ℚ))
    (h : ∀ p ∈ l, 0 ≤ p.1 ∧ 0 ≤ p.2) : 0 ≤ weightedSum l := by
  induction l with
  | nil => simp [weightedSum]
  | cons p l ih =>
    have hp := h p (by simp)
    have hl := ih fun q hq => h q (by simp [hq])
    have : 0 ≤ p.1 * p.2 := mul_nonneg hp.1 hp.2
    simp only [weightedSum, List.map_cons, List.sum_cons] at *
    linarith

lemma weightedSum_le_weightTotal (l : List (ℚ × ℚ))
    (h : ∀ p ∈ l, 0 ≤ p.1 ∧ p.2 ≤ 1) : weightedSum l ≤ weightTotal l := by
  induction l with
  | nil => simp [weightedSum, weightTotal]
  | cons p l ih =>
    have hp := h p (by simp)
    have hl := ih fun q hq => h q (by simp [hq])
    have : p.1 * p.2 ≤ p.1 := mul_le_of_le_one_right hp.1 hp.2
    simp only [weightedSum, weightTotal, List.map_cons, List.sum_cons] at *
    linarith

/-- The final score in terms of the applicable-factor sums. -/
lemma finalScore_eq (c1 c2 : CaseRecord) :
    finalScore c1 c2 =
      if 0 < weightTotal (factorList c1 c2) then
        weightedSum (factorList c1 c2) / weightTotal (factorList c1 c2)
      else 0 := by
  rw [finalScore, scoreParts_eq]

lemma finalScore_nonneg (c1 c2 : CaseRecord) : 0 ≤ finalScore c1 c2 := by
  rw [finalScore_eq]
  split
  · apply div_nonneg
    · exact weightedSum_nonneg _ fun p hp => by
        have h := factor_bounds c1 c2 p hp
        rcases h.1 with h1 | h1 <;> rw [h1] <;>
          exact ⟨by norm_num, h.2.1⟩
    · exact weightTotal_nonneg _ fun p hp => by
        rcases (factor_bounds c1 c2 p hp).1 with h1 | h1 <;> rw [h1] <;>
          norm_num
  · exact le_refl 0

lemma finalScore_le_one (c1 c2 : CaseRecord) : finalScore c1 c2 ≤ 1 := by
  rw [finalScore_eq]
  split
  · rename_i hpos
    rw [div_le_one hpos]
    exact weightedSum_le_weightTotal _ fun p hp => by
      have h := factor_bounds c1 c2 p hp
      rcases h.1 with h1 | h1 <;> rw [h1] <;> exact ⟨by norm_num, h.2.2⟩
  · norm_num

/-- With exactly one applicable factor the final score is that factor's raw
similarity. -/
lemma finalScore_single (c1 c2 : CaseRecord) (w s : ℚ)
    (h : factorList c1 c2 = [(w, s)]) : finalScore c1 c2 = s := by
  have hw : 0 < w := by
    have hm : (w, s) ∈ factorList c1 c2 := by rw [h]; simp
    rcases (factor_bounds c1 c2 (w, s) hm).1 with h1 | h1 <;>
      simp only at h1 <;> rw [h1] <;> norm_num
  rw [finalScore_eq, h]
  have ht : weightTotal [(w, s)] = w := by simp [weightTotal]
  have hs : weightedSum [(w, s)] = w * s := by simp [weightedSum]
  rw [ht, hs, if_pos hw]
  field_simp

/-! ## Persistence-loop lemmas -/

lemma persistLoop_cases (fails : Candidate → Bool) (userId : String) :
    ∀ (cs : List Candidate) (st : Store) (acc : List DupRecord),
      (persistLoop fails userId cs st acc).1.cases = st.cases := by
  intro cs
  induction cs with
  | nil => intro st acc; rfl
  | cons c rest ih =>
    intro st acc
    rw [persistLoop]
    split
    · exact ih st acc
    · split
      · rfl
      · exact ih _ _

lemma persistLoop_registry_extends (fails : Candidate → Bool)
    (userId : String) :
    ∀ (cs : List Candidate) (st : Store) (acc : List DupRecord),
      ∃ xs, (persistLoop fails userId cs st acc).1.registry =
        st.registry ++ xs := by
  intro cs
  induction cs with
  | nil => intro st acc; exact ⟨[], by simp [persistLoop]⟩
  | cons c rest ih =>
    intro st acc
    rw [persistLoop]
    split
    · exact ih st acc
    · split
      · exact ⟨[], by simp⟩
      · obtain ⟨xs, hxs⟩ := ih
          { st with
            registry := st.registry ++ [mkDup st.nextId userId c]
            nextId := st.nextId + 1 }
          (acc ++ [mkDup st.nextId userId c])
        exact ⟨mkDup st.nextId userId c :: xs, by simpa using hxs⟩

lemma existsPair_append (reg xs : List DupRecord) (o d : String)
    (h : existsPair reg o d = true) : existsPair (reg ++ xs) o d = true := by
  rw [existsPair] at *
  rw [List.any_append, h]
  rfl

/-- After a failure-free persistence run, every candidate of the input list
has a matching ordered pair in the resulting registry. -/
lemma persistLoop_covers (userId : String) :
    ∀ (cs : List Candidate) (st : Store) (acc : List DupRecord),
      ∀ c ∈ cs,
        existsPair
          (persistLoop (fun _ => false) userId cs st acc).1.registry
          c.originalCaseId c.duplicateCaseId = true := by
  intro cs
  induction cs with
  | nil => intro st acc c hc; cases hc
  | cons c0 rest ih =>
    intro st acc c hc
    rw [persistLoop]
    simp only [Bool.false_eq_true, if_false]
    rcases List.mem_cons.mp hc with rfl | hmem
    · split
      · rename_i hex
        obtain ⟨xs, hxs⟩ :=
          persistLoop_registry_extends (fun _ => false) userId rest st acc
        rw [hxs]
        exact existsPair_append _ _ _ _ hex
      · rename_i hex
        obtain ⟨xs, hxs⟩ :=
          persistLoop_registry_extends (fun _ => false) userId rest
            { st with
              registry := st.registry ++ [mkDup st.nextId userId c]
              nextId := st.nextId + 1 }
            (acc ++ [mkDup st.nextId userId c])
        rw [hxs]
        have hbase : existsPair (st.registry ++ [mkDup st.nextId userId c])
            c.originalCaseId c.duplicateCaseId = true := by
          rw [existsPair, List.any_append]
          have : existsPair [mkDup st.nextId userId c]
              c.originalCaseId c.duplicateCaseId = true := by
            simp [existsPair, mkDup]
          rw [existsPair] at this
          rw [this]
          simp
        exact existsPair_append _ _ _ _ hbase
    · split
      · exact ih st acc c hmem
      · exact ih _ _ c hmem

/-- When every candidate already has a registered pair, the persistence loop
is a no-op: nothing is created, no failure can occur, the store is
untouched. -/
lemma persistLoop_all_existing (fails : Candidate → Bool) (userId : String) :
    ∀ (cs : List Candidate) (st : Store) (acc : List DupRecord),
      (∀ c ∈ cs,
        existsPair st.registry c.originalCaseId c.duplicateCaseId = true) →
      persistLoop fails userId cs st acc = (st, acc, false) := by
  intro cs
  induction cs with
  | nil => intro st acc _; rfl
  | cons c rest ih =>
    intro st acc h
    rw [persistLoop, if_pos (h c (by simp))]
    exact ih st acc fun c2 hc2 => h c2 (by simp [hc2])

/-- A failure-free persistence run never sets the error flag. -/
lemma persistLoop_noFail (userId : String) :
    ∀ (cs : List Candidate) (st : Store) (acc : List DupRecord),
      (persistLoop (fun _ => false) userId cs st acc).2.2 = false := by
  intro cs
  induction cs with
  | nil => intro st acc; rfl
  | cons c rest ih =>
    intro st acc
    rw [persistLoop]
    simp only [Bool.false_eq_true, if_false]
    split
    · exact ih st acc
    · exact ih _ _

/-- Membership form of the registry existence check. -/
lemma existsPair_iff (reg : List DupRecord) (o d : String) :
    existsPair reg o d = true ↔
      ∃ r ∈ reg, r.originalCaseId = o ∧ r.duplicateCaseId = d := by
  rw [existsPair, List.any_eq_true]
  constructor
  · rintro ⟨r, hr, hdec⟩
    exact ⟨r, hr, of_decide_eq_true hdec⟩
  · rintro ⟨r, hr, hprop⟩
    exact ⟨r, hr, decide_eq_true hprop⟩

/-! ## Detection-pass lemmas -/

lemma detectPass_cases (fails : Candidate → Bool) (userId : String)
    (thresholdOpt : Option ℚ) (st : Store) :
    (detectPass fails userId thresholdOpt st).2.cases = st.cases := by
  rw [detectPass]
  exact persistLoop_cases fails userId _ st []

/-- An unsatisfiable threshold (above 1) filters out every pair. -/
lemma detectCandidates_gt_one (cases : List CaseRecord) (threshold : ℚ)
    (h : 1 < threshold) : detectCandidates cases threshold = [] := by
  rw [detectCandidates, List.filterMap_eq_nil]
  intro p _
  rw [if_neg]
  intro hle
  have := finalScore_le_one p.1 p.2
  linarith

/-- Any `i < j` index pair of the input list appears in the double-loop
enumeration. -/
lemma pairsAfter_mem :
    ∀ (cases : List CaseRecord) (i j : Nat) (c1 c2 : CaseRecord),
      i < j → cases.get? i = some c1 → cases.get? j = some c2 →
      (c1, c2) ∈ pairsAfter cases := by
  intro cases
  induction cases with
  | nil => intro i j c1 c2 _ h1 _; cases h1
  | cons c rest ih =>
    intro i j c1 c2 hij h1 h2
    rw [pairsAfter, List.mem_append]
    cases i with
    | zero =>
      cases j with
      | zero => omega
      | succ j =>
        left
        rw [List.get?_cons_zero] at h1
        cases h1
        rw [List.get?_cons_succ] at h2
        exact List.mem_map.mpr ⟨c2, List.get?_mem h2, rfl⟩
    | succ i =>
      cases j with
      | zero => omega
      | succ j =>
        right
        rw [List.get?_cons_succ] at h1 h2
        exact ih i j c1 c2 (by omega) h1 h2

/-- A pair whose score reaches the threshold yields a candidate. -/
lemma detectCandidates_mem (cases : List CaseRecord) (threshold : ℚ)
    (c1 c2 : CaseRecord) (hp : (c1, c2) ∈ pairsAfter cases)
    (hs : threshold ≤ finalScore c1 c2) :
    (⟨c1.id, c2.id, finalScore c1 c2⟩ : Candidate) ∈
      detectCandidates cases threshold := by
  rw [detectCandidates, List.mem_filterMap]
  exact ⟨(c1, c2), hp, by rw [if_pos hs]⟩

/-- Running the detection pass twice (without storage failures) on the same
store: the second run re-derives the same candidates, finds each of them
registered, creates nothing and leaves the store untouched. -/
lemma detectPass_idempotent (u1 u2 : String) (thresholdOpt : Option ℚ)
    (st : Store) :
    detectPass (fun _ => false) u2 thresholdOpt
        (detectPass (fun _ => false) u1 thresholdOpt st).2 =
      (DetectResult.ok [],
        (detectPass (fun _ => false) u1 thresholdOpt st).2) := by
  have hcases : (detectPass (fun _ => false) u1 thresholdOpt st).2.cases =
      st.cases := detectPass_cases _ _ _ _
  rw [detectPass, detectPass]
  have hcov := persistLoop_covers u1
    (detectCandidates st.cases (thresholdOpt.getD (7 / 10))) st []
  have hall := persistLoop_all_existing (fun _ => false) u2
    (detectCandidates
      (persistLoop (fun _ => false) u1
        (detectCandidates st.cases (thresholdOpt.getD (7 / 10))) st []).1.cases
      (thresholdOpt.getD (7 / 10)))
    (persistLoop (fun _ => false) u1
      (detectCandidates st.cases (thresholdOpt.getD (7 / 10))) st []).1 []
    (by
      intro c hc
      rw [detectPass] at hcases
      dsimp only at hcases ⊢
      rw [hcases] at hc
      exact hcov c hc)
  rw [detectPass] at hcases
  dsimp only at hcases ⊢
  rw [hall]
  rfl

lemma factorList_mkRec (i1 i2 : String) :
    factorList (mkRec i1) (mkRec i2) = [(2 / 5, 1)] := by
  have hs : nameSimilarity (mkRec i1) (mkRec i2) = 1 := by
    show calculateSimilarity (lowerStr "ab") (lowerStr "ab") = 1
    rw [(by decide : lowerStr "ab" = "ab")]
    exact calculateSimilarity_self "ab"
  rw [factorList, nameFactor, dateFactor, provinceFactor, ageFactor]
  rw [if_pos
    (⟨(by decide : ("ab" : String) ≠ ""), (by decide : ("ab" : String) ≠ "")⟩ :
      (mkRec i1).fullName ≠ "" ∧ (mkRec i2).fullName ≠ "")]
  rw [hs]
  rfl

lemma finalScore_mkRec (i1 i2 : String) :
    finalScore (mkRec i1) (mkRec i2) = 1 :=
  finalScore_single _ _ (2 / 5) 1 (factorList_mkRec i1 i2)

/-! ## Claim theorems -/

/-- C9: for all strings `s1` and `s2`, the normalized text similarity is
symmetric: `similarity(s1, s2) = similarity(s2, s1)`. -/
theorem claim_C9_similarity_symmetric (s1 s2 : String) :
    calculateSimilarity s1 s2 = calculateSimilarity s2 s1 :=
  calculateSimilarity_comm s1 s2

/-- C5: `levenshteinDistance(s1, s2)` equals the classic edit distance
defined by the dynamic-programming recurrence with base cases `d[i][0] = i`
and `d[0][j] = j` (the table `classicMatrix`, written from the spec's words);
the normalized similarity equals `(maxLen - distance) / maxLen` with
`maxLen = max(len1, len2)` whenever `maxLen` is positive; two empty strings
have similarity 1; and `levenshtein(s, s) = 0`, `similarity(s, s) = 1` for
every string `s`. -/
theorem claim_C5_levenshtein_classic (s1 s2 : String) :
    levenshteinDistance s1 s2 =
      classicMatrix s1.data s2.data s1.data.length s2.data.length
    ∧ (0 < max s1.length s2.length →
        calculateSimilarity s1 s2 =
          (((max s1.length s2.length : ℕ) : ℚ) -
            (levenshteinDistance s1 s2 : ℚ)) /
            ((max s1.length s2.length : ℕ) : ℚ))
    ∧ (s1 = "" → s2 = "" → calculateSimilarity s1 s2 = 1)
    ∧ levenshteinDistance s1 s1 = 0
    ∧ calculateSimilarity s1 s1 = 1 := by
  refine ⟨?_, ?_, ?_, levenshteinDistance_self s1,
    calculateSimilarity_self s1⟩
  · rw [levenshteinDistance, classicMatrix_eq_matVal]
    exact matVal_symm s1.data s2.data s2.data.length s1.data.length
  · intro hmax
    rw [calculateSimilarity]
    by_cases h : s2.length < s1.length
    · have hm : max s1.length s2.length = s1.length := by omega
      simp only [if_pos h, hm]
      rw [if_neg (by omega)]
    · have hm : max s1.length s2.length = s2.length := by
        rw [Nat.max_eq_right (by omega)]
      simp only [if_neg h, hm]
      rw [if_neg (by omega), levenshteinDistance_comm s2 s1]
  · rintro rfl rfl
    rfl

/-- C5 witness: the formula conjunct applied at the concrete strings
"ab" and "b" (maxLen 2, distance 1) gives similarity 1/2. -/
theorem claim_C5_witness : calculateSimilarity "ab" "b" = 1 / 2 := by
  have h := (claim_C5_levenshtein_classic "ab" "b").2.1 (by decide)
  rw [h]
  have h1 : max "ab".length "b".length = 2 := by decide
  have h2 : levenshteinDistance "ab" "b" = 1 := by decide
  rw [h1, h2]
  norm_num

/-- C4: the pairwise score is the weighted mean over the applicable factors:
`Σ weight·similarity / Σ weight` when some factor applies and 0 when none
does; it always lies in `[0, 1]`; and with exactly one applicable factor it
equals that factor's raw similarity. -/
theorem claim_C4_weighted_score (c1 c2 : CaseRecord) :
    finalScore c1 c2 =
      (if 0 < weightTotal (factorList c1 c2) then
        weightedSum (factorList c1 c2) / weightTotal (factorList c1 c2)
      else 0)
    ∧ (factorList c1 c2 = [] → finalScore c1 c2 = 0)
    ∧ 0 ≤ finalScore c1 c2 ∧ finalScore c1 c2 ≤ 1
    ∧ ∀ w s, factorList c1 c2 = [(w, s)] → finalScore c1 c2 = s := by
  refine ⟨finalScore_eq c1 c2, ?_, finalScore_nonneg c1 c2,
    finalScore_le_one c1 c2, fun w s h => finalScore_single c1 c2 w s h⟩
  intro h
  rw [finalScore_eq, h]
  norm_num [weightTotal]

/-- C4 witness: two records sharing only the name factor (similarity 1):
the single-factor conjunct gives final score 1. -/
theorem claim_C4_witness : finalScore (mkRec "A") (mkRec "B") = 1 :=
  (claim_C4_weighted_score (mkRec "A") (mkRec "B")).2.2.2.2 (2 / 5) 1
    (factorList_mkRec "A" "B")

/-- C10: a falsy-but-present field — an empty full name or an age equal
to 0 — is excluded from the score exactly as an absent field is: empty names
yield no name factor (the factor list degenerates to the other three), a
zero age yields no age factor, and a record with `age = 0` scores exactly
like the same record with no age at all. -/
theorem claim_C10_falsy_fields_excluded (c1 c2 : CaseRecord) :
    ((c1.fullName = "" ∨ c2.fullName = "") →
      nameFactor c1 c2 = none ∧
      factorList c1 c2 = (dateFactor c1 c2).toList ++
        (provinceFactor c1 c2).toList ++ (ageFactor c1 c2).toList)
    ∧ ((c1.age = some 0 ∨ c2.age = some 0) → ageFactor c1 c2 = none)
    ∧ finalScore { c1 with age := some 0 } c2 =
        finalScore { c1 with age := none } c2
    ∧ finalScore c1 { c2 with age := some 0 } =
        finalScore c1 { c2 with age := none } := by
  refine ⟨?_, ?_, ?_, ?_⟩
  · intro h
    have hn : nameFactor c1 c2 = none := by
      rw [nameFactor, if_neg]
      rintro ⟨h1, h2⟩
      rcases h with h | h
      · exact h1 h
      · exact h2 h
    exact ⟨hn, by rw [factorList, hn]; simp⟩
  · intro h
    rw [ageFactor]
    rcases h1 : c1.age with _ | a1 <;> rcases h2 : c2.age with _ | a2 <;>
      dsimp only <;> try rfl
    rw [if_neg]
    rintro ⟨hne1, hne2⟩
    rcases h with h | h
    · rw [h1] at h; cases h; exact hne1 rfl
    · rw [h2] at h; cases h; exact hne2 rfl
  · have hfl : factorList { c1 with age := some 0 } c2 =
        factorList { c1 with age := none } c2 := by
      rw [factorList, factorList]
      have ha : ageFactor { c1 with age := some 0 } c2 =
          ageFactor { c1 with age := none } c2 := by
        rw [ageFactor, ageFactor]
        dsimp only
        rcases h2 : c2.age with _ | a2 <;> dsimp only <;> (try rfl) <;>
          rw [if_neg (fun hc => hc.1 rfl)]
      rw [ha]
      rfl
    rw [finalScore_eq, finalScore_eq, hfl]
  · have hfl : factorList c1 { c2 with age := some 0 } =
        factorList c1 { c2 with age := none } := by
      rw [factorList, factorList]
      have ha : ageFactor c1 { c2 with age := some 0 } =
          ageFactor c1 { c2 with age := none } := by
        rw [ageFactor, ageFactor]
        dsimp only
        rcases h1 : c1.age with _ | a1 <;> dsimp only <;> (try rfl) <;>
          rw [if_neg (fun hc => hc.2 rfl)]
      rw [ha]
      rfl
    rw [finalScore_eq, finalScore_eq, hfl]

/-- C10 witness: two records with empty names and age 0 have no name factor
and no age factor. -/
theorem claim_C10_witness :
    nameFactor ⟨"A", "", some 0, none, none⟩ ⟨"B", "", some 0, none, none⟩ =
      none ∧
    ageFactor ⟨"A", "", some 0, none, none⟩ ⟨"B", "", some 0, none, none⟩ =
      none :=
  ⟨((claim_C10_falsy_fields_excluded _ _).1 (Or.inl rfl)).1,
    (claim_C10_falsy_fields_excluded _ _).2.1 (Or.inl rfl)⟩

/-- C1 counterexample: resolving a pair whose current status is CONFIRMADO
(not PENDENTE) does not fail — the handler never inspects the current
status.  The call succeeds and overwrites the stored resolution fields, so
the claimed `InvalidTransitionError`-and-unchanged behaviour is false. -/
theorem claim_C1_counterexample :
    (stResolved.registry.find? fun r => r.id = 1).map (fun r => r.status) =
      some DupStatus.CONFIRMADO ∧
    (resolve "v" 5 1 DupStatus.REJEITADO none none stResolved).1 =
      ResolveResult.ok
        ⟨1, "A", "B", 1, "u", DupStatus.REJEITADO, some "v", some 5, none⟩ ∧
    (resolve "v" 5 1 DupStatus.REJEITADO none none stResolved).2.registry ≠
      stResolved.registry := by
  refine ⟨rfl, rfl, ?_⟩
  decide

/-- C1 (amended): a resolve call on an existing pair succeeds for every
current status — the handler never checks the stored status, so
re-resolution is silently accepted and overwrites `status`, `resolvedBy`,
`resolvedAt` and (when provided) `resolutionNotes`; only a missing pair id
is rejected (`notFound`), and only a `PENDENTE` body status fails
validation. -/
theorem claim_C1_resolve_accepts_any_status (userId : String) (now : Int)
    (pairId : Nat) (status : DupStatus) (notes : Option String) (st : Store)
    (dup : DupRecord) (hstatus : status ≠ DupStatus.PENDENTE)
    (hfind : (st.registry.find? fun r => r.id = pairId) = some dup) :
    resolve userId now pairId status notes none st =
      (ResolveResult.ok
        { dup with
          status := status
          resolvedBy := some userId
          resolvedAt := some now
          resolutionNotes :=
            match notes with
            | some n => some n
            | none => dup.resolutionNotes },
        { st with
          registry := st.registry.map fun r =>
            if r.id = pairId then
              { dup with
                status := status
                resolvedBy := some userId
                resolvedAt := some now
                resolutionNotes :=
                  match notes with
                  | some n => some n
                  | none => dup.resolutionNotes }
            else r }) := by
  rw [resolve, if_neg hstatus, hfind]
  dsimp only
  rw [if_neg]
  rintro ⟨_, hdel⟩
  cases hdel

/-- C1 witness: the amended theorem applied to the CONFIRMADO pair of
`stResolved`. -/
theorem claim_C1_witness :
    resolve "v" 5 1 DupStatus.REJEITADO none none stResolved =
      (ResolveResult.ok
        ⟨1, "A", "B", 1, "u", DupStatus.REJEITADO, some "v", some 5, none⟩,
        ⟨[mkRec "A", mkRec "B"],
          [⟨1, "A", "B", 1, "u", DupStatus.REJEITADO, some "v", some 5,
            none⟩],
          [], 2⟩) := by
  have h := claim_C1_resolve_accepts_any_status "v" 5 1 DupStatus.REJEITADO
    none stResolved
    ⟨1, "A", "B", 1, "u", DupStatus.CONFIRMADO, some "u", some 0, none⟩
    (by decide) (by decide)
  rw [h]
  decide

/-- C3: a resolve call deletes the referenced duplicate CaseRecord if and
only if the new status is CONFIRMADO and the delete flag is truthy — any run
that changes the case store or the audit log took that branch; in the branch
the duplicate's row is removed from the case store and a
`DELETE_DUPLICATE_CASE` audit entry is appended; and the detection pass
never touches the case store. -/
theorem claim_C3_delete_only_on_confirmed :
    (∀ (userId : String) (now : Int) (pairId : Nat) (status : DupStatus)
       (notes : Option String) (del : Option Bool) (st : Store),
      ((resolve userId now pairId status notes del st).2.cases ≠ st.cases ∨
       (resolve userId now pairId status notes del st).2.auditLogs ≠
         st.auditLogs) →
      status = DupStatus.CONFIRMADO ∧ del = some true)
    ∧ (∀ (userId : String) (now : Int) (pairId : Nat) (notes : Option String)
         (st : Store) (dup : DupRecord) (victim : CaseRecord),
        (st.registry.find? fun r => r.id = pairId) = some dup →
        (st.cases.find? fun c => c.id = dup.duplicateCaseId) = some victim →
        (resolve userId now pairId DupStatus.CONFIRMADO notes (some true)
            st).2.cases =
          st.cases.filter (fun c => ¬c.id = dup.duplicateCaseId) ∧
        (resolve userId now pairId DupStatus.CONFIRMADO notes (some true)
            st).2.auditLogs =
          st.auditLogs ++
            [⟨userId, "DELETE_DUPLICATE_CASE", "CASE", dup.duplicateCaseId,
              "Caso duplicado deletado: " ++ victim.fullName,
              dup.originalCaseId, dup.duplicateCaseId,
              dup.similarityScore⟩])
    ∧ (∀ (fails : Candidate → Bool) (userId : String)
         (thresholdOpt : Option ℚ) (st : Store),
        (detectPass fails userId thresholdOpt st).2.cases = st.cases) := by
  refine ⟨?_, ?_, fun fails userId thr st => detectPass_cases _ _ _ _⟩
  · intro userId now pairId status notes del st h
    rw [resolve] at h
    by_cases h0 : status = DupStatus.PENDENTE
    · rw [if_pos h0] at h
      rcases h with h | h <;> exact absurd rfl h
    · rw [if_neg h0] at h
      rcases hfind : st.registry.find? fun r => r.id = pairId with _ | dup <;>
        rw [hfind] at h <;> dsimp only at h
      · rcases h with h | h <;> exact absurd rfl h
      · by_cases hc : status = DupStatus.CONFIRMADO ∧ del = some true
        · exact hc
        · rw [if_neg hc] at h
          rcases h with h | h <;> exact absurd rfl h
  · intro userId now pairId notes st dup victim hfind hvict
    rw [resolve, if_neg (by decide), hfind]
    dsimp only
    rw [if_pos ⟨rfl, rfl⟩]
    rw [hvict]
    dsimp only
    exact ⟨rfl, rfl⟩

/-- C3 witness: the delete branch applied to a concrete PENDENTE pair with
delete flag true removes the "B" record and appends the audit entry. -/
theorem claim_C3_witness :
    (resolve "v" 5 1 DupStatus.CONFIRMADO none (some true)
        ⟨[mkRec "A", mkRec "B"],
          [⟨1, "A", "B", 1, "u", DupStatus.PENDENTE, none, none, none⟩],
          [], 2⟩).2.cases =
      [mkRec "A"] ∧
    (resolve "v" 5 1 DupStatus.CONFIRMADO none (some true)
        ⟨[mkRec "A", mkRec "B"],
          [⟨1, "A", "B", 1, "u", DupStatus.PENDENTE, none, none, none⟩],
          [], 2⟩).2.auditLogs =
      [⟨"v", "DELETE_DUPLICATE_CASE", "CASE", "B",
        "Caso duplicado deletado: ab", "A", "B", 1⟩] := by
  have h := (claim_C3_delete_only_on_confirmed).2.1 "v" 5 1 none
    ⟨[mkRec "A", mkRec "B"],
      [⟨1, "A", "B", 1, "u", DupStatus.PENDENTE, none, none, none⟩],
      [], 2⟩
    ⟨1, "A", "B", 1, "u", DupStatus.PENDENTE, none, none, none⟩
    (mkRec "B") (by decide) (by decide)
  rcases h with ⟨h1, h2⟩
  constructor
  · rw [h1]; decide
  · rw [h2]; rfl

/-- Candidate list of a two-record store. -/
lemma detectCandidates_pair (c1 c2 : CaseRecord) (thr : ℚ) :
    detectCandidates [c1, c2] thr =
      if thr ≤ finalScore c1 c2 then
        [⟨c1.id, c2.id, finalScore c1 c2⟩]
      else [] := by
  rw [detectCandidates]
  rw [show pairsAfter [c1, c2] = [(c1, c2)] from rfl]
  rw [List.filterMap_cons]
  by_cases h : thr ≤ finalScore c1 c2
  · simp only [if_pos h]
    rfl
  · simp only [if_neg h]
    rfl

/-- Candidate list of the three-record store used in concrete runs: all
three ordered combinations score 1 and pass the 0.7 threshold. -/
lemma detectCandidates_mkRec3 :
    detectCandidates [mkRec "A", mkRec "B", mkRec "C"] (7 / 10) =
      [⟨"A", "B", 1⟩, ⟨"A", "C", 1⟩, ⟨"B", "C", 1⟩] := by
  have hle : (7 : ℚ) / 10 ≤ 1 := by norm_num
  rw [detectCandidates]
  rw [show pairsAfter [mkRec "A", mkRec "B", mkRec "C"] =
    [(mkRec "A", mkRec "B"), (mkRec "A", mkRec "C"), (mkRec "B", mkRec "C")]
    from rfl]
  rw [List.filterMap_cons, List.filterMap_cons, List.filterMap_cons]
  dsimp only
  rw [finalScore_mkRec "A" "B", finalScore_mkRec "A" "C",
    finalScore_mkRec "B" "C"]
  simp only [if_pos hle]
  rfl

/-- C6: running the detection pass a second time on the unchanged record set
creates zero new pairs and leaves the store untouched — because each
candidate is first looked up by its exact ordered `(originalCaseId,
duplicateCaseId)` key and skipped when a pair already exists (second
conjunct: the loop's skip step). -/
theorem claim_C6_detection_idempotent :
    (∀ (u1 u2 : String) (thresholdOpt : Option ℚ) (st : Store),
      detectPass (fun _ => false) u2 thresholdOpt
          (detectPass (fun _ => false) u1 thresholdOpt st).2 =
        (DetectResult.ok [],
          (detectPass (fun _ => false) u1 thresholdOpt st).2))
    ∧ ∀ (fails : Candidate → Bool) (userId : String) (c : Candidate)
        (rest : List Candidate) (st : Store) (acc : List DupRecord),
        existsPair st.registry c.originalCaseId c.duplicateCaseId = true →
        persistLoop fails userId (c :: rest) st acc =
          persistLoop fails userId rest st acc := by
  refine ⟨fun u1 u2 thr st => detectPass_idempotent u1 u2 thr st,
    fun fails userId c rest st acc h => ?_⟩
  rw [persistLoop, if_pos h]

/-- C6 witness: the skip step applied to a registry already holding the
`("A", "B")` pair. -/
theorem claim_C6_witness :
    persistLoop (fun _ => false) "u" [⟨"A", "B", 1⟩]
        ⟨[mkRec "A", mkRec "B"],
          [⟨0, "A", "B", 1, "u", DupStatus.PENDENTE, none, none, none⟩],
          [], 1⟩ [] =
      persistLoop (fun _ => false) "u" []
        ⟨[mkRec "A", mkRec "B"],
          [⟨0, "A", "B", 1, "u", DupStatus.PENDENTE, none, none, none⟩],
          [], 1⟩ [] :=
  claim_C6_detection_idempotent.2 (fun _ => false) "u" ⟨"A", "B", 1⟩ []
    ⟨[mkRec "A", mkRec "B"],
      [⟨0, "A", "B", 1, "u", DupStatus.PENDENTE, none, none, none⟩],
      [], 1⟩ [] (by decide)

/-- C7 (amended): the detect handler performs no validation of the supplied
threshold: for every rational threshold (and for the defaulted 0.7 when the
body carries none) the pass runs to completion and answers with a success
response — an out-of-range threshold is never rejected. -/
theorem claim_C7_no_threshold_validation :
    (∀ (thresholdOpt : Option ℚ) (userId : String) (st : Store),
      ∃ created,
        detectPass (fun _ => false) userId thresholdOpt st =
          (DetectResult.ok created,
            (persistLoop (fun _ => false) userId
              (detectCandidates st.cases (thresholdOpt.getD (7 / 10))) st
              []).1))
    ∧ ∀ (fails : Candidate → Bool) (userId : String) (st : Store),
        detectPass fails userId none st =
          detectPass fails userId (some (7 / 10)) st := by
  constructor
  · intro thr u st
    refine ⟨(persistLoop (fun _ => false) u
      (detectCandidates st.cases (thr.getD (7 / 10))) st []).2.1, ?_⟩
    rw [detectPass]
    have h := persistLoop_noFail u
      (detectCandidates st.cases (thr.getD (7 / 10))) st []
    rw [h]
    rfl
  · intro f u st
    rfl

/-- C7 counterexample: the malformed threshold -1 (outside [0, 1]) is not
rejected before any work — the pass reads the records, scores the pair and
persists it, answering with a success response. -/
theorem claim_C7_counterexample :
    detectPass (fun _ => false) "mod" (some (-1))
        ⟨[mkRec "A", mkRec "B"], [], [], 0⟩ =
      (DetectResult.ok
        [⟨0, "A", "B", 1, "mod", DupStatus.PENDENTE, none, none, none⟩],
        ⟨[mkRec "A", mkRec "B"],
          [⟨0, "A", "B", 1, "mod", DupStatus.PENDENTE, none, none, none⟩],
          [], 1⟩) := by
  have hc : detectCandidates [mkRec "A", mkRec "B"] ((-1 : ℚ)) =
      [⟨"A", "B", 1⟩] := by
    rw [detectCandidates_pair, finalScore_mkRec "A" "B",
      if_pos (by norm_num : ((-1 : ℚ)) ≤ 1)]
    rfl
  rw [detectPass]
  rw [show detectCandidates
      (⟨[mkRec "A", mkRec "B"], [], [], 0⟩ : Store).cases
      ((some ((-1 : ℚ))).getD (7 / 10)) = [⟨"A", "B", 1⟩] from hc]
  decide

/-- C8: a detection pass with threshold 1.1 never creates a pair and leaves
the store untouched; a pass with threshold 0 over an empty registry yields,
for every `i < j` combination of records sharing at least one comparable
factor, a registered pair with exactly that ordered id pair. -/
theorem claim_C8_threshold_extremes :
    (∀ (userId : String) (st : Store),
      detectPass (fun _ => false) userId (some (11 / 10)) st =
        (DetectResult.ok [], st))
    ∧ ∀ (userId : String) (cases : List CaseRecord) (logs : List AuditEntry)
        (n : Nat) (i j : Nat) (c1 c2 : CaseRecord),
        i < j → cases.get? i = some c1 → cases.get? j = some c2 →
        factorList c1 c2 ≠ [] →
        ∃ r ∈ (detectPass (fun _ => false) userId (some 0)
            ⟨cases, [], logs, n⟩).2.registry,
          r.originalCaseId = c1.id ∧ r.duplicateCaseId = c2.id := by
  constructor
  · intro u st
    rw [detectPass]
    have hc : detectCandidates st.cases
        ((some ((11 : ℚ) / 10)).getD (7 / 10)) = [] :=
      detectCandidates_gt_one _ _ (by norm_num)
    dsimp only [Option.getD] at hc ⊢
    rw [hc]
    rfl
  · intro u cases logs n i j c1 c2 hij h1 h2 _
    have hp := pairsAfter_mem cases i j c1 c2 hij h1 h2
    have hcand : (⟨c1.id, c2.id, finalScore c1 c2⟩ : Candidate) ∈
        detectCandidates cases 0 :=
      detectCandidates_mem cases 0 c1 c2 hp (finalScore_nonneg c1 c2)
    have hcov := persistLoop_covers u (detectCandidates cases 0)
      ⟨cases, [], logs, n⟩ [] _ hcand
    obtain ⟨r, hr, h3, h4⟩ := (existsPair_iff _ _ _).mp hcov
    exact ⟨r, hr, h3, h4⟩

/-- C8 witness: the threshold-0 conjunct applied to two concrete comparable
records yields a registered ("A", "B") pair. -/
theorem claim_C8_witness :
    ∃ r ∈ (detectPass (fun _ => false) "u" (some 0)
        ⟨[mkRec "A", mkRec "B"], [], [], 0⟩).2.registry,
      r.originalCaseId = "A" ∧ r.duplicateCaseId = "B" :=
  claim_C8_threshold_extremes.2 "u" [mkRec "A", mkRec "B"] [] 0 0 1
    (mkRec "A") (mkRec "B") (by decide) rfl rfl
    (by rw [factorList_mkRec]; exact List.cons_ne_nil _ _)

/-- C2 (amended): when persisting one candidate fails, the whole pass
aborts: the failing candidate and all candidates after it are not persisted
(the loop returns immediately with the error flag) and the failure is
surfaced to the caller as the catch-all server error. -/
theorem claim_C2_persistence_failure_aborts (fails : Candidate → Bool)
    (userId : String) (thresholdOpt : Option ℚ) (st : Store) (c : Candidate)
    (rest : List Candidate)
    (hcand : detectCandidates st.cases (thresholdOpt.getD (7 / 10)) =
      c :: rest)
    (hex : existsPair st.registry c.originalCaseId c.duplicateCaseId = false)
    (hf : fails c = true) :
    (∀ acc, persistLoop fails userId (c :: rest) st acc = (st, acc, true))
    ∧ detectPass fails userId thresholdOpt st =
        (DetectResult.serverError, st) := by
  have habort : ∀ acc,
      persistLoop fails userId (c :: rest) st acc = (st, acc, true) := by
    intro acc
    rw [persistLoop, if_neg (by rw [hex]; exact Bool.false_ne_true),
      if_pos hf]
  refine ⟨habort, ?_⟩
  rw [detectPass]
  rw [hcand, habort []]
  rfl

/-- C2 witness: the abort behaviour at a concrete store whose single
candidate fails to persist. -/
theorem claim_C2_witness :
    detectPass (fun c => c.duplicateCaseId == "B") "u" (some (7 / 10))
        ⟨[mkRec "A", mkRec "B"], [], [], 0⟩ =
      (DetectResult.serverError, ⟨[mkRec "A", mkRec "B"], [], [], 0⟩) :=
  (claim_C2_persistence_failure_aborts (fun c => c.duplicateCaseId == "B")
    "u" (some (7 / 10)) ⟨[mkRec "A", mkRec "B"], [], [], 0⟩ ⟨"A", "B", 1⟩ []
    (by
      rw [show ((some ((7 : ℚ) / 10)).getD (7 / 10)) = 7 / 10 from rfl]
      rw [show (⟨[mkRec "A", mkRec "B"], [], [], 0⟩ : Store).cases =
        [mkRec "A", mkRec "B"] from rfl]
      rw [detectCandidates_pair, finalScore_mkRec "A" "B",
        if_pos (by norm_num : (7 : ℚ) / 10 ≤ 1)]
      rfl)
    rfl rfl).2

/-- C2 counterexample: with three candidates and the first one failing to
persist, the claimed behaviour (drop the one candidate, persist the other
two, report success) does not happen: nothing at all is persisted and the
caller receives the server error — while the same store without the failure
persists all three candidates. -/
theorem claim_C2_counterexample :
    detectPass (fun c => c.duplicateCaseId == "B") "u" (some (7 / 10))
        ⟨[mkRec "A", mkRec "B", mkRec "C"], [], [], 0⟩ =
      (DetectResult.serverError,
        ⟨[mkRec "A", mkRec "B", mkRec "C"], [], [], 0⟩) ∧
    ((detectPass (fun _ => false) "u" (some (7 / 10))
        ⟨[mkRec "A", mkRec "B", mkRec "C"], [], [], 0⟩).2.registry).length =
      3 := by
  constructor
  · rw [detectPass]
    rw [show detectCandidates
        (⟨[mkRec "A", mkRec "B", mkRec "C"], [], [], 0⟩ : Store).cases
        ((some ((7 : ℚ) / 10)).getD (7 / 10)) =
        [⟨"A", "B", 1⟩, ⟨"A", "C", 1⟩, ⟨"B", "C", 1⟩]
      from detectCandidates_mkRec3]
    decide
  · rw [detectPass]
    rw [show detectCandidates
        (⟨[mkRec "A", mkRec "B", mkRec "C"], [], [], 0⟩ : Store).cases
        ((some ((7 : ℚ) / 10)).getD (7 / 10)) =
        [⟨"A", "B", 1⟩, ⟨"A", "C", 1⟩, ⟨"B", "C", 1⟩]
      from detectCandidates_mkRec3]
    decide

end Desaparecidos
